import Mathlib

/-!
Verification of the meetro-serverless payment and settlement-reconciliation
subsystem.  The definitions below are a shallow embedding of the TypeScript
source: `src/utils/helpers.ts` (fee calculator), `src/models/donation.model.ts`
(donation schema and pre-save hook), `src/models/job.model.ts` (job checkpoint
store), `src/controllers/payment.controller.ts` (verify-payment handler and
Paystack webhook handler) and the settlement reconciliation job
(`runPaystackSettlementReconcile`).

Modelling conventions:
* The document store is modelled as a partial map from the unique
  `paymentReference` key to the donation document (`paymentReference` is
  unique/sparse in the schema, and every operation verified here addresses
  donations by that key).
* JavaScript numbers are modelled as rationals (`ℚ`); timestamps as `Int`
  milliseconds.
* Network effects (Paystack HTTP calls) are parameters: a handler receives the
  response the gateway would give, `Except` capturing a thrown error.
* The HMAC-SHA512 primitive from node's `crypto` is external to the repository
  and is kept abstract as a keyed function `String → String`; what is verified
  is which bytes are fed to it.
* Mongoose `populate` only attaches related event data used for response
  formatting; it does not affect donation state and is projected out.
-/

/-- Donation `status` enumeration from `donation.model.ts`. -/
inductive DStatus where
  | pending
  | completed
  | refunded
  | failed
deriving DecidableEq, Repr

/-- Donation `payoutStatus` enumeration from `donation.model.ts`. -/
inductive PStatus where
  | pending
  | paid
  | failed
deriving DecidableEq, Repr

/-- The `metadata` subdocument of a donation (`donation.model.ts`). -/
structure DMetadata where
  transactionId : Option String := none
  gateway : Option String := none
  gatewayResponse : Option String := none
deriving DecidableEq, Repr

/-- A donation document (`donation.model.ts`), keyed externally by its unique
`paymentReference`. -/
structure Donation where
  amount : ℚ
  currency : String := "NGN"
  fee : ℚ
  status : DStatus := .pending
  payoutStatus : PStatus := .pending
  isPayoutEligible : Bool := false
  settledAt : Option Int := none
  metadata : Option DMetadata := none
deriving DecidableEq, Repr

/-- The donation collection, as a map from `paymentReference` to document. -/
abbrev DStore := String → Option Donation

/-- Mongoose `findOneAndUpdate({ paymentReference: ref }, update)`: applies the
update to the (unique) document whose reference matches, if any. -/
def updateRef (store : DStore) (ref : String) (f : Donation → Donation) : DStore :=
  fun r => if r = ref then (store r).map f else store r

/-- Fee calculator from `src/utils/helpers.ts`:
`amount * feePercentage + fixedFee` with `feePercentage = 0.01` and
`fixedFee = 100`. -/
def calculateFee (amount : ℚ) : ℚ :=
  amount * (1 / 100) + 100

/-- The `metadata` object of a Paystack verify-transaction response, as read by
the handlers (`originalAmount`, `transaction_fee`, `type`). -/
structure PayMeta where
  type : String
  originalAmount : ℚ
  transaction_fee : ℚ
deriving DecidableEq, Repr

/-- The `data` object of a Paystack `GET /transaction/verify/:reference`
response, as read by the handlers. -/
structure VerifyResp where
  status : String
  amount : ℚ
  gateway_response : String
  metadata : PayMeta
deriving DecidableEq, Repr

/-- Result of the verify-payment handler: either `next(new AppError(msg, code))`
or the 200 JSON response carrying the formatted data and payment type. -/
inductive VPRes where
  | err (statusCode : Nat) (msg : String)
  | success (data : Option Donation) (paymentType : String)
deriving DecidableEq, Repr

/-- The update document both completion paths pass to `findOneAndUpdate`:
`status: "completed"` plus the full `metadata` subdocument
(`payment.controller.ts`, verify path and webhook path). -/
def completeDoc (ref : String) (gwResp : String) (d : Donation) : Donation :=
  { d with
    status := .completed
    metadata := some { transactionId := some ref, gateway := some "paystack",
                       gatewayResponse := some gwResp } }

/-- The `existingDonation && existingDonation.status === "completed"` test both
handlers perform before writing. -/
def isCompletedAt (store : DStore) (ref : String) : Bool :=
  match store ref with
  | some d => d.status = DStatus.completed
  | none => false

/-- The `verifyPayment` controller (`payment.controller.ts`).  `reference` is
the query parameter; `gw` is the outcome of the Paystack verify call (`.error`
models a thrown request error, caught and surfaced as a 500). -/
def verifyPayment (reference : Option String) (gw : Except String VerifyResp)
    (store : DStore) : VPRes × DStore :=
  match reference with
  | none => (.err 400 "Payment reference is required", store)
  | some ref =>
    match gw with
    | .error e => (.err 500 e, store)
    | .ok paymentData =>
      if paymentData.status ≠ "success" then
        (.err 400 "Payment not successful", store)
      else
        let paymentType := paymentData.metadata.type
        let expectedAmount :=
          (paymentData.metadata.originalAmount + paymentData.metadata.transaction_fee) * 100
        if paymentData.amount ≠ expectedAmount then
          (.err 400 "Payment amount mismatch", store)
        else if paymentType = "chipin" then
          if isCompletedAt store ref then
            match store ref with
            | some donation => (.success (some donation) "chipin", store)
            | none => (.err 404 "Chip-in not found", store)
          else
            let store' := updateRef store ref (completeDoc ref paymentData.gateway_response)
            match store' ref with
            | some donation => (.success (some donation) "chipin", store')
            | none => (.err 404 "Chip-in not found", store')
        else if paymentType = "ticket" then
          (.success none "ticket", store)
        else
          (.err 400 "Invalid payment type", store)

mutual

/-- JSON values, as far as the webhook machinery observes them (strings,
numbers and objects suffice for Paystack event payloads). -/
inductive Json where
  | str : String → Json
  | num : Int → Json
  | obj : JFields → Json
deriving DecidableEq, Repr

/-- Field list of a JSON object. -/
inductive JFields where
  | nil : JFields
  | cons : String → Json → JFields → JFields
deriving DecidableEq, Repr

end

/-- Left brace character (written by code point to keep it out of string
literals). -/
def lbrace : Char := Char.ofNat 123

/-- Right brace character. -/
def rbrace : Char := Char.ofNat 125

mutual

/-- JavaScript `JSON.stringify` on parsed values: compact output, no added
whitespace.  String escaping is not modelled (payload fields verified here
contain no characters needing escapes). -/
def Json.stringify : Json → String
  | .str s => "\"" ++ s ++ "\""
  | .num n => toString n
  | .obj fs => "\x7b" ++ Json.stringifyFields fs ++ "\x7d"

/-- Comma-separated `"key":value` rendering of object fields. -/
def Json.stringifyFields : JFields → String
  | .nil => ""
  | .cons k v .nil => "\"" ++ k ++ "\":" ++ Json.stringify v
  | .cons k v rest =>
      "\"" ++ k ++ "\":" ++ Json.stringify v ++ "," ++ Json.stringifyFields rest

end

/-- Lookup in a JSON object field list. -/
def JFields.lookup : JFields → String → Option Json
  | .nil, _ => none
  | .cons k v rest, key => if key = k then some v else JFields.lookup rest key

/-- Field lookup on a JSON object (`payload.event` style access). -/
def Json.getField : Json → String → Option Json
  | .obj fs, k => fs.lookup k
  | _, _ => none

/-- String extraction from a JSON value. -/
def Json.getString : Json → Option String
  | .str s => some s
  | _ => none

/-- Whitespace skipping for the JSON reader. -/
def skipWs : List Char → List Char
  | c :: cs => if c = ' ' ∨ c = '\n' ∨ c = '\t' ∨ c = '\r' then skipWs cs else c :: cs
  | [] => []

/-- Reads the body of a JSON string after the opening quote, up to the closing
quote (no escape sequences). -/
def readStringBody : List Char → Option (String × List Char)
  | [] => none
  | c :: cs =>
      if c = '"' then some ("", cs)
      else (readStringBody cs).map (fun p => (c.toString ++ p.1, p.2))

/-- Longest digit prefix of the input. -/
def takeDigits : List Char → List Char × List Char
  | [] => ([], [])
  | c :: cs =>
      if c.isDigit then
        let p := takeDigits cs
        (c :: p.1, p.2)
      else ([], c :: cs)

/-- Digit list to a natural number. -/
def digitsToNat (ds : List Char) : Nat :=
  ds.foldl (fun a c => a * 10 + (c.toNat - 48)) 0

mutual

/-- Fuel-driven JSON reader: values are strings, non-negative integers, or
objects.  Used only to relate raw request bytes to their parsed form. -/
def readVal : Nat → List Char → Option (Json × List Char)
  | 0, _ => none
  | Nat.succ fuel, cs =>
    match skipWs cs with
    | [] => none
    | c :: rest =>
      if c = '"' then
        (readStringBody rest).map (fun p => (Json.str p.1, p.2))
      else if c = lbrace then
        match skipWs rest with
        | [] => none
        | c2 :: rest2 =>
          if c2 = rbrace then some (Json.obj .nil, rest2)
          else readFields fuel (c2 :: rest2)
      else
        match takeDigits (c :: rest) with
        | ([], _) => none
        | (ds, r) => some (Json.num (Int.ofNat (digitsToNat ds)), r)

/-- Reads `"key": value` pairs up to the closing brace. -/
def readFields : Nat → List Char → Option (Json × List Char)
  | 0, _ => none
  | Nat.succ fuel, cs =>
    match skipWs cs with
    | [] => none
    | c :: rest =>
      if c = '"' then
        match readStringBody rest with
        | none => none
        | some (k, r1) =>
          match skipWs r1 with
          | ':' :: r2 =>
            match readVal fuel r2 with
            | none => none
            | some (v, r3) =>
              match skipWs r3 with
              | ',' :: r4 =>
                match readFields fuel r4 with
                | some (Json.obj fs, r5) => some (Json.obj (.cons k v fs), r5)
                | _ => none
              | c4 :: r4 =>
                if c4 = rbrace then some (Json.obj (.cons k v .nil), r4) else none
              | [] => none
          | _ => none
      else none

end

/-- Parses a full JSON document (express `json()` body parsing, restricted to
the fragment above). -/
def jsParse (s : String) : Option Json :=
  match readVal (s.length + 1) s.data with
  | some (j, rest) => if skipWs rest = [] then some j else none
  | none => none

/-- Signature-and-event gate of `paystackWebhook` (`payment.controller.ts`):
the handler recomputes `crypto.createHmac("sha512", secret)` over
`JSON.stringify(payload)` — the re-serialized parsed body — and rejects when it
differs from the `x-paystack-signature` header or when `payload.event` is not
`charge.success`.  `hmac` is the keyed HMAC-SHA512, abstract here. -/
def webhookGate (hmac : String → String) (payload : Json) (signature : Option String) : Bool :=
  signature = some (hmac (Json.stringify payload))
    && payload.getField "event" = some (Json.str "charge.success")

/-- Modelled from the spec: section 4.3 step 1 requires the HMAC to be
recomputed "over the exact received payload bytes"; this gate hashes the raw
request body instead of its re-serialization.  The repository has no such
implementation; this definition exists only for comparison with `webhookGate`. -/
def webhookGateSpec (hmac : String → String) (rawBody : String) (payload : Json)
    (signature : Option String) : Bool :=
  signature = some (hmac rawBody)
    && payload.getField "event" = some (Json.str "charge.success")

/-- Reference extraction `payload.data.reference` performed by the webhook
handler; a missing field interpolates as the string `undefined` in the
`/transaction/verify/` URL. -/
def webhookReference (payload : Json) : String :=
  (((payload.getField "data").bind (fun d => d.getField "reference")).bind
    Json.getString).getD "undefined"

/-- Body of `paystackWebhook` after the signature/event gate: verify the
transaction with Paystack, branch on `metadata.type`, and for `chipin` either
acknowledge an already-completed donation or apply the completion update.  The
result is the HTTP status sent (`res.sendStatus`). -/
def paystackWebhookAfterGate (reference : String) (gw : Except String VerifyResp)
    (store : DStore) : Nat × DStore :=
  match gw with
  | .error _ => (500, store)
  | .ok verifiedData =>
    if verifiedData.status ≠ "success" then (400, store)
    else
      let paymentType := verifiedData.metadata.type
      if paymentType = "chipin" then
        if isCompletedAt store reference then (200, store)
        else
          (200, updateRef store reference
            (completeDoc reference verifiedData.gateway_response))
      else if paymentType = "ticket" then (200, store)
      else (400, store)

/-- The full `paystackWebhook` controller: gate on signature and event, then
process the referenced transaction. -/
def paystackWebhook (hmac : String → String) (payload : Json) (signature : Option String)
    (gw : Except String VerifyResp) (store : DStore) : Nat × DStore :=
  if webhookGate hmac payload signature then
    paystackWebhookAfterGate (webhookReference payload) gw store
  else (400, store)

/-- The job checkpoint collection (`job.model.ts`): name to `lastRunAt`.
`getLastRun` collapses a missing document and a null `lastRunAt` to `none`,
exactly as `job ? job.lastRunAt || null : null` does. -/
abbrev JobStore := String → Option Int

/-- `Job.getLastRun(name)` from `job.model.ts`. -/
def getLastRun (jobs : JobStore) (name : String) : Option Int :=
  jobs name

/-- `Job.updateLastRun(name)` from `job.model.ts`: upsert `lastRunAt` to the
current time. -/
def updateLastRun (name : String) (now : Int) (jobs : JobStore) : JobStore :=
  fun n => if n = name then some now else jobs n

/-- A settlement entry returned by `GET /settlement` (only `id` is consumed
downstream). -/
structure Settlement where
  id : Nat
  status : String := "success"
deriving DecidableEq, Repr

/-- A settlement transaction entry returned by
`GET /settlement/:id/transactions`. -/
structure SettlementTxn where
  id : Nat := 0
  reference : String
  status : String := "success"
deriving DecidableEq, Repr

/-- One gateway page: either the listed entries or a thrown request error. -/
abbrev GPage (α : Type) := Except String (List α)

/-- The gateway as observed by one reconciliation run: the successive
settlement pages for a given `from` timestamp, and the successive transaction
pages of each settlement id.  A page past the end of the list is empty (the
loops stop on an empty page). -/
structure ReconcileEnv where
  settPages : Int → List (GPage Settlement)
  txnPages : Nat → List (GPage SettlementTxn)

/-- Filter of the batch donation query in `runPaystackSettlementReconcile`:
`metadata.gateway = "paystack"`, `isPayoutEligible = false`,
`payoutStatus = "pending"`, `status = "completed"` (the reference-set clause is
applied by the caller). -/
def settleMatch (d : Donation) : Bool :=
  decide (d.metadata.bind DMetadata.gateway = some "paystack")
    && !d.isPayoutEligible
    && decide (d.payoutStatus = PStatus.pending)
    && decide (d.status = DStatus.completed)

/-- Whether the donation stored under `r` matches the batch-query filter. -/
def matchAt (store : DStore) (r : String) : Bool :=
  (Option.map settleMatch (store r)).getD false

/-- The per-donation `bulkWrite` update: `settledAt = now`,
`isPayoutEligible = true`. -/
def applySettle (now : Int) (d : Donation) : Donation :=
  { d with settledAt := some now, isPayoutEligible := true }

/-- Processing of one page of references: batch-query the matching donations
(each matching document once — references are keys) and bulk-update them;
returns the new store and the number of reconciled donations. -/
def processRefs (now : Int) (refs : List String) (store : DStore) : DStore × Nat :=
  let matched := refs.dedup.filter (fun r => matchAt store r)
  (fun r => if r ∈ matched then (store r).map (applySettle now) else store r,
   matched.length)

/-- References collected from one transaction page
(`.map(t => t.reference).filter(Boolean)`). -/
def pageRefs (txns : List SettlementTxn) : List String :=
  txns.filterMap (fun t => if t.reference = "" then none else some t.reference)

/-- The inner transaction-pagination loop for one settlement: stop on a thrown
error (propagated), an empty page, or a page shorter than `perPage = 100`. -/
def processTxnPages (now : Int) : List (GPage SettlementTxn) → DStore →
    DStore × Nat × Option String
  | [], store => (store, 0, none)
  | p :: rest, store =>
    match p with
    | .error e => (store, 0, some e)
    | .ok txns =>
      if txns.isEmpty then (store, 0, none)
      else
        let step := processRefs now (pageRefs txns) store
        if txns.length < 100 then (step.1, step.2, none)
        else
          let next := processTxnPages now rest step.1
          (next.1, step.2 + next.2.1, next.2.2)

/-- The `for (const settlement of settlements)` loop: transactions of each
settlement in order; a thrown error aborts the remaining settlements. -/
def processSettlements (env : ReconcileEnv) (now : Int) : List Settlement → DStore →
    DStore × Nat × Option String
  | [], store => (store, 0, none)
  | s :: rest, store =>
    let step := processTxnPages now (env.txnPages s.id) store
    match step.2.2 with
    | some e => (step.1, step.2.1, some e)
    | none =>
      let next := processSettlements env now rest step.1
      (next.1, step.2.1 + next.2.1, next.2.2)

/-- The outer settlement-pagination loop: stop on a thrown error (propagated),
an empty page, or a page shorter than `perPage = 50`. -/
def processSettPages (env : ReconcileEnv) (now : Int) : List (GPage Settlement) → DStore →
    DStore × Nat × Option String
  | [], store => (store, 0, none)
  | p :: rest, store =>
    match p with
    | .error e => (store, 0, some e)
    | .ok setts =>
      if setts.isEmpty then (store, 0, none)
      else
        let step := processSettlements env now setts store
        match step.2.2 with
        | some e => (step.1, step.2.1, some e)
        | none =>
          if setts.length < 50 then (step.1, step.2.1, none)
          else
            let next := processSettPages env now rest step.1
            (next.1, step.2.1 + next.2.1, next.2.2)

/-- Name under which the reconciliation job checkpoints itself. -/
def reconcileJobName : String := "paystack_settlement_reconcile"

/-- Milliseconds in `lookbackDays` days: `1000 * 60 * 60 * 24 * days`. -/
def lookbackMs (days : Nat) : Int :=
  1000 * 60 * 60 * 24 * (days : Int)

/-- `DEFAULT_LOOKBACK_DAYS = parseInt(process.env.SETTLEMENT_LOOKBACK_DAYS || "1", 10)`:
the configured value, defaulting to 1 day. -/
def defaultLookbackDays (envVar : Option Nat) : Nat :=
  envVar.getD 1

/-- Window start of a run:
`lastRunAt ?? new Date(Date.now() - 1000*60*60*24*DEFAULT_LOOKBACK_DAYS)`. -/
def reconcileFrom (jobs : JobStore) (now : Int) (lookbackDays : Nat) : Int :=
  (getLastRun jobs reconcileJobName).getD (now - lookbackMs lookbackDays)

/-- Outcome of one reconciliation run. -/
structure ReconcileResult where
  store : DStore
  jobs : JobStore
  totalReconciled : Nat
  error : Option String

/-- `runPaystackSettlementReconcile`: read the checkpoint, page through the
settlement window, and upsert the checkpoint only when every page succeeded.
`now` is the run start (`Date.now()`); `endTime` the time of the final
`updateLastRun` call.  A thrown gateway error leaves the checkpoint untouched
while keeping the donation writes already performed. -/
def runPaystackSettlementReconcile (env : ReconcileEnv) (lookbackDays : Nat)
    (now endTime : Int) (jobs : JobStore) (store : DStore) : ReconcileResult :=
  let fromTs := reconcileFrom jobs now lookbackDays
  let run := processSettPages env now (env.settPages fromTs) store
  match run.2.2 with
  | some e => ⟨run.1, jobs, run.2.1, some e⟩
  | none => ⟨run.1, updateLastRun reconcileJobName endTime jobs, run.2.1, none⟩

/-- An `AppError(message, statusCode)` from `utils/appError`. -/
structure AppErr where
  message : String
  statusCode : Nat
deriving DecidableEq, Repr

/-- The `chipInDetails` subdocument of an event (`event.model.ts`), as read by
the donation pre-save hook. -/
structure ChipInDetails where
  chipInType : String
  fixedAmount : Option ℚ := none
  targetAmount : Option ℚ := none
  minAmount : Option ℚ := none
deriving DecidableEq, Repr

/-- An event document, restricted to the field the donation pre-save hook
consults. -/
structure EventRec where
  chipInDetails : Option ChipInDetails := none
deriving DecidableEq, Repr

/-- JavaScript `a < b` where `b` may be `undefined` (comparison with
`undefined` is false). -/
def jsLtOpt (a : ℚ) (b : Option ℚ) : Bool :=
  match b with
  | some m => a < m
  | none => false

/-- JavaScript `a !== b` where `b` may be `undefined` (strict inequality with
`undefined` is true). -/
def jsNeqOpt (a : ℚ) (b : Option ℚ) : Bool :=
  some a ≠ b

/-- Rendering of a possibly-undefined number into an error message. -/
def showOptAmount (x : Option ℚ) : String :=
  match x with
  | some m => toString m
  | none => "undefined"

/-- The donation schema `pre("save")` middleware (`donation.model.ts`): on a
new document, look up the event (404 if absent), enforce the chip-in amount
rules (400 on violation), then set `fee = calculateFee(amount)`.  On a
non-new document nothing runs, so the fee is never recomputed. -/
def donationPreSave (isNew : Bool) (ev : Option EventRec) (d : Donation) :
    Except AppErr Donation :=
  if isNew then
    match ev with
    | none => .error ⟨"Event not found", 404⟩
    | some event =>
      match event.chipInDetails with
      | some cd =>
        if cd.chipInType = "donation" && jsLtOpt d.amount cd.minAmount then
          .error ⟨"Donation amount must be at least " ++ d.currency ++ " "
            ++ showOptAmount cd.minAmount, 400⟩
        else if cd.chipInType = "fixed" && jsNeqOpt d.amount cd.fixedAmount then
          .error ⟨"Donation amount must be exactly " ++ d.currency ++ " "
            ++ showOptAmount cd.fixedAmount, 400⟩
        else .ok { d with fee := calculateFee d.amount }
      | none => .ok { d with fee := calculateFee d.amount }
  else .ok d

/-- A freshly created chip-in donation (the `chipin` controller's
`Donation.create` after the pre-save hook): `pending`, payout pending, not
payout-eligible, fee from the fee calculator. -/
def mkDonation (amount : ℚ) : Donation :=
  { amount := amount, fee := calculateFee amount }

/-- Donation stores reachable through the operations of the payment subsystem:
the empty collection, chip-in creation at a fresh reference, the two completion
handlers, and the settlement reconciliation job. -/
inductive ReachableStore : DStore → Prop where
  | empty : ReachableStore (fun _ => none)
  | create {s : DStore} (ref : String) (amount : ℚ) :
      ReachableStore s → s ref = none →
      ReachableStore (fun r => if r = ref then some (mkDonation amount) else s r)
  | verify {s : DStore} (reference : Option String) (gw : Except String VerifyResp) :
      ReachableStore s → ReachableStore (verifyPayment reference gw s).2
  | webhook {s : DStore} (hmac : String → String) (payload : Json)
      (signature : Option String) (gw : Except String VerifyResp) :
      ReachableStore s → ReachableStore (paystackWebhook hmac payload signature gw s).2
  | reconcile {s : DStore} (env : ReconcileEnv) (lookbackDays : Nat)
      (now endTime : Int) (jobs : JobStore) :
      ReachableStore s →
      ReachableStore (runPaystackSettlementReconcile env lookbackDays now endTime jobs s).store

/-- Pointwise effect of reconciliation processing: each donation is either
untouched or was matched by the batch filter and settled. -/
def Evolves (now : Int) (s s' : DStore) : Prop :=
  ∀ r, s' r = s r ∨
    ∃ d, s r = some d ∧ settleMatch d = true ∧ s' r = some (applySettle now d)

lemma settleMatch_applySettle (now : Int) (d : Donation) :
    settleMatch (applySettle now d) = false := by
  simp [settleMatch, applySettle]

lemma settleMatch_status {d : Donation} (h : settleMatch d = true) :
    d.status = DStatus.completed := by
  simp [settleMatch, Bool.and_eq_true] at h
  tauto

lemma settleMatch_eligible {d : Donation} (h : settleMatch d = true) :
    d.isPayoutEligible = false := by
  simp [settleMatch, Bool.and_eq_true] at h
  tauto

lemma matchAt_some {s : DStore} {r : String} {d : Donation} (h : s r = some d) :
    matchAt s r = settleMatch d := by
  simp [matchAt, h]

lemma matchAt_none {s : DStore} {r : String} (h : s r = none) :
    matchAt s r = false := by
  simp [matchAt, h]

lemma Evolves.refl (now : Int) (s : DStore) : Evolves now s s :=
  fun _ => Or.inl rfl

lemma Evolves.trans {now : Int} {s s' s'' : DStore}
    (h1 : Evolves now s s') (h2 : Evolves now s' s'') : Evolves now s s'' := by
  intro r
  rcases h2 r with h2r | ⟨d', hd', hm', hs''⟩
  · rw [h2r]; exact h1 r
  · rcases h1 r with h1r | ⟨d, hd, hm, hs'⟩
    · rw [h1r] at hd'
      exact Or.inr ⟨d', hd', hm', hs''⟩
    · rw [hs'] at hd'
      injection hd' with hdd
      rw [← hdd, settleMatch_applySettle] at hm'
      exact absurd hm' (by simp)

lemma Evolves.matchAt_false {now : Int} {s s' : DStore} (h : Evolves now s s')
    {r : String} (hf : matchAt s r = false) : matchAt s' r = false := by
  rcases h r with hr | ⟨d, hd, hm, hs'⟩
  · simp only [matchAt, hr]
    simpa [matchAt] using hf
  · simp [matchAt, hs', settleMatch_applySettle]

lemma Evolves.eligible_fixed {now : Int} {s s' : DStore} (h : Evolves now s s')
    {r : String} {d : Donation} (hd : s r = some d)
    (he : d.isPayoutEligible = true) : s' r = some d := by
  rcases h r with hr | ⟨d', hd', hm', hs'⟩
  · rw [hr, hd]
  · rw [hd] at hd'
    injection hd' with hdd
    rw [← hdd] at hm'
    rw [settleMatch_eligible hm'] at he
    exact absurd he (by simp)

lemma processRefs_apply (now : Int) (refs : List String) (store : DStore) (r : String) :
    (processRefs now refs store).1 r =
      (if r ∈ refs.dedup.filter (fun x => matchAt store x)
        then (store r).map (applySettle now) else store r) := by
  simp [processRefs]

lemma processRefs_evolves (now : Int) (refs : List String) (store : DStore) :
    Evolves now store (processRefs now refs store).1 := by
  intro r
  rw [processRefs_apply]
  by_cases hm : r ∈ refs.dedup.filter (fun x => matchAt store x)
  · have hma := (List.mem_filter.mp hm).2
    rcases hs : store r with _ | d
    · rw [matchAt_none hs] at hma
      exact absurd hma (by simp)
    · rw [matchAt_some hs] at hma
      refine Or.inr ⟨d, rfl, hma, ?_⟩
      rw [if_pos hm]
      rfl
  · rw [if_neg hm]
    exact Or.inl rfl

lemma processRefs_cleared (now : Int) (refs : List String) (store : DStore)
    {r : String} (hr : r ∈ refs) :
    matchAt (processRefs now refs store).1 r = false := by
  by_cases hm : r ∈ refs.dedup.filter (fun x => matchAt store x)
  · have hma := (List.mem_filter.mp hm).2
    rcases hs : store r with _ | d
    · rw [matchAt_none hs] at hma
      exact absurd hma (by simp)
    · have happ : (processRefs now refs store).1 r = some (applySettle now d) := by
        rw [processRefs_apply, if_pos hm, hs]
        rfl
      rw [matchAt_some happ, settleMatch_applySettle]
  · have hfalse : matchAt store r = false := by
      by_contra hc
      exact hm (List.mem_filter.mpr ⟨List.mem_dedup.mpr hr,
        Bool.not_eq_false _ ▸ hc⟩)
    have happ : (processRefs now refs store).1 r = store r := by
      rw [processRefs_apply, if_neg hm]
    simp only [matchAt, happ]
    simpa [matchAt] using hfalse

lemma processRefs_noop (now : Int) (refs : List String) (store : DStore)
    (h : ∀ r ∈ refs, matchAt store r = false) :
    processRefs now refs store = (store, 0) := by
  have hnil : refs.dedup.filter (fun x => matchAt store x) = [] := by
    rw [List.filter_eq_nil_iff]
    intro a ha
    rw [h a (List.mem_dedup.mp ha)]
    simp
  rw [processRefs]
  simp only [hnil]
  refine Prod.ext ?_ rfl
  funext r
  simp

lemma processTxnPages_evolves (now : Int) (pages : List (GPage SettlementTxn)) :
    ∀ store : DStore, Evolves now store (processTxnPages now pages store).1 := by
  induction pages with
  | nil => intro store; exact Evolves.refl now store
  | cons p rest ih =>
    intro store
    rcases p with e | txns
    · exact Evolves.refl now store
    · by_cases he : txns.isEmpty
      · simp only [processTxnPages, he, if_true]
        exact Evolves.refl now store
      · by_cases hlen : txns.length < 100
        · simp only [processTxnPages, he, if_false, hlen, if_true, Bool.false_eq_true]
          exact processRefs_evolves now _ store
        · simp only [processTxnPages, he, if_false, hlen, Bool.false_eq_true]
          exact (processRefs_evolves now _ store).trans (ih _)

lemma processSettlements_evolves (env : ReconcileEnv) (now : Int) (setts : List Settlement) :
    ∀ store : DStore, Evolves now store (processSettlements env now setts store).1 := by
  induction setts with
  | nil => intro store; exact Evolves.refl now store
  | cons s rest ih =>
    intro store
    rcases hstep : processTxnPages now (env.txnPages s.id) store with ⟨s', n', err⟩
    have hev : Evolves now store s' := by
      have := processTxnPages_evolves now (env.txnPages s.id) store
      rw [hstep] at this
      exact this
    rcases err with _ | e
    · simp only [processSettlements, hstep]
      exact hev.trans (ih s')
    · simp only [processSettlements, hstep]
      exact hev

lemma processSettPages_evolves (env : ReconcileEnv) (now : Int)
    (pages : List (GPage Settlement)) :
    ∀ store : DStore, Evolves now store (processSettPages env now pages store).1 := by
  induction pages with
  | nil => intro store; exact Evolves.refl now store
  | cons p rest ih =>
    intro store
    rcases p with e | setts
    · exact Evolves.refl now store
    · by_cases he : setts.isEmpty
      · simp only [processSettPages, he, if_true]
        exact Evolves.refl now store
      · rcases hstep : processSettlements env now setts store with ⟨s', n', err⟩
        have hev : Evolves now store s' := by
          have := processSettlements_evolves env now setts store
          rw [hstep] at this
          exact this
        rcases err with _ | e
        · by_cases hlen : setts.length < 50
          · simp only [processSettPages, he, if_false, hstep, hlen, if_true, Bool.false_eq_true]
            exact hev
          · simp only [processSettPages, he, if_false, hstep, hlen, Bool.false_eq_true]
            exact hev.trans (ih s')
        · simp only [processSettPages, he, if_false, hstep, Bool.false_eq_true]
          exact hev

lemma runReconcile_evolves (env : ReconcileEnv) (lookbackDays : Nat)
    (now endTime : Int) (jobs : JobStore) (store : DStore) :
    Evolves now store
      (runPaystackSettlementReconcile env lookbackDays now endTime jobs store).store := by
  rcases hrun : processSettPages env now (env.settPages (reconcileFrom jobs now lookbackDays))
      store with ⟨s', n', err⟩
  have hev : Evolves now store s' := by
    have := processSettPages_evolves env now
      (env.settPages (reconcileFrom jobs now lookbackDays)) store
    rw [hrun] at this
    exact this
  rcases err with _ | e
  · simp only [runPaystackSettlementReconcile, hrun]
    exact hev
  · simp only [runPaystackSettlementReconcile, hrun]
    exact hev

lemma processTxnPages_rerun (now now2 : Int) (pages : List (GPage SettlementTxn)) :
    ∀ (store s1 s2 : DStore) (n : Nat),
    processTxnPages now pages store = (s1, n, none) →
    (∀ r, matchAt s1 r = false → matchAt s2 r = false) →
    processTxnPages now2 pages s2 = (s2, 0, none) := by
  induction pages with
  | nil => intro store s1 s2 n h hpres; rfl
  | cons p rest ih =>
    intro store s1 s2 n h hpres
    rcases p with e | txns
    · simp [processTxnPages] at h
    · by_cases he : txns.isEmpty
      · simp only [processTxnPages, he, if_true]
      · by_cases hlen : txns.length < 100
        · simp only [processTxnPages, he, if_false, hlen, if_true, Bool.false_eq_true] at h
          have hs1 : (processRefs now (pageRefs txns) store).1 = s1 :=
            congrArg Prod.fst h
          have hclear : ∀ r ∈ pageRefs txns, matchAt s2 r = false := by
            intro r hr
            apply hpres
            rw [← hs1]
            exact processRefs_cleared now (pageRefs txns) store hr
          have hnoop := processRefs_noop now2 (pageRefs txns) s2 hclear
          simp only [processTxnPages, he, if_false, hlen, if_true, Bool.false_eq_true]
          rw [hnoop]
        · simp only [processTxnPages, he, if_false, hlen, Bool.false_eq_true] at h
          rcases hN : processTxnPages now rest (processRefs now (pageRefs txns) store).1
            with ⟨ns, nn, nerr⟩
          rw [hN] at h
          have hs1 : ns = s1 := congrArg Prod.fst h
          have herr : nerr = none := congrArg (fun q => q.2.2) h
          rw [herr] at hN
          have hevN : Evolves now (processRefs now (pageRefs txns) store).1 ns := by
            have := processTxnPages_evolves now rest (processRefs now (pageRefs txns) store).1
            rw [hN] at this
            exact this
          have hclear : ∀ r ∈ pageRefs txns, matchAt s2 r = false := by
            intro r hr
            apply hpres
            rw [← hs1]
            exact hevN.matchAt_false (processRefs_cleared now (pageRefs txns) store hr)
          have hnoop := processRefs_noop now2 (pageRefs txns) s2 hclear
          have hrest : processTxnPages now2 rest s2 = (s2, 0, none) := by
            refine ih (processRefs now (pageRefs txns) store).1 ns s2 nn hN ?_
            intro r hf
            apply hpres
            rw [← hs1]
            exact hf
          simp only [processTxnPages, he, if_false, hlen, Bool.false_eq_true]
          rw [hnoop, hrest]
          rfl

lemma processSettlements_rerun (env : ReconcileEnv) (now now2 : Int)
    (setts : List Settlement) :
    ∀ (store s1 s2 : DStore) (n : Nat),
    processSettlements env now setts store = (s1, n, none) →
    (∀ r, matchAt s1 r = false → matchAt s2 r = false) →
    processSettlements env now2 setts s2 = (s2, 0, none) := by
  induction setts with
  | nil => intro store s1 s2 n h hpres; rfl
  | cons st rest ih =>
    intro store s1 s2 n h hpres
    rcases hT : processTxnPages now (env.txnPages st.id) store with ⟨ts, tn, terr⟩
    rcases terr with _ | e
    · simp only [processSettlements, hT] at h
      rcases hR : processSettlements env now rest ts with ⟨rs, rn, rerr⟩
      rw [hR] at h
      have hs1 : rs = s1 := congrArg Prod.fst h
      have herr : rerr = none := congrArg (fun q => q.2.2) h
      rw [herr] at hR
      have hevR : Evolves now ts rs := by
        have := processSettlements_evolves env now rest ts
        rw [hR] at this
        exact this
      have hpresT : ∀ r, matchAt ts r = false → matchAt s2 r = false := by
        intro r hf
        apply hpres
        rw [← hs1]
        exact hevR.matchAt_false hf
      have hTnoop : processTxnPages now2 (env.txnPages st.id) s2 = (s2, 0, none) :=
        processTxnPages_rerun now now2 (env.txnPages st.id) store ts s2 tn hT hpresT
      have hRnoop : processSettlements env now2 rest s2 = (s2, 0, none) := by
        refine ih ts rs s2 rn hR ?_
        intro r hf
        apply hpres
        rw [← hs1]
        exact hf
      simp only [processSettlements, hTnoop, hRnoop]
    · simp only [processSettlements, hT] at h
      have : some e = none := congrArg (fun q => q.2.2) h
      simp at this

lemma processSettPages_rerun (env : ReconcileEnv) (now now2 : Int)
    (pages : List (GPage Settlement)) :
    ∀ (store s1 s2 : DStore) (n : Nat),
    processSettPages env now pages store = (s1, n, none) →
    (∀ r, matchAt s1 r = false → matchAt s2 r = false) →
    processSettPages env now2 pages s2 = (s2, 0, none) := by
  induction pages with
  | nil => intro store s1 s2 n h hpres; rfl
  | cons p rest ih =>
    intro store s1 s2 n h hpres
    rcases p with e | setts
    · simp [processSettPages] at h
    · by_cases he : setts.isEmpty
      · simp only [processSettPages, he, if_true]
      · rcases hS : processSettlements env now setts store with ⟨ss, sn, serr⟩
        rcases serr with _ | e
        · by_cases hlen : setts.length < 50
          · simp only [processSettPages, he, if_false, hS, hlen, if_true,
              Bool.false_eq_true] at h
            have hs1 : ss = s1 := congrArg Prod.fst h
            have hSnoop : processSettlements env now2 setts s2 = (s2, 0, none) := by
              refine processSettlements_rerun env now now2 setts store ss s2 sn hS ?_
              intro r hf
              apply hpres
              rw [← hs1]
              exact hf
            simp only [processSettPages, he, if_false, hSnoop, hlen, if_true,
              Bool.false_eq_true]
          · simp only [processSettPages, he, if_false, hS, hlen, Bool.false_eq_true] at h
            rcases hR : processSettPages env now rest ss with ⟨rs, rn, rerr⟩
            rw [hR] at h
            have hs1 : rs = s1 := congrArg Prod.fst h
            have herr : rerr = none := congrArg (fun q => q.2.2) h
            rw [herr] at hR
            have hevR : Evolves now ss rs := by
              have := processSettPages_evolves env now rest ss
              rw [hR] at this
              exact this
            have hpresS : ∀ r, matchAt ss r = false → matchAt s2 r = false := by
              intro r hf
              apply hpres
              rw [← hs1]
              exact hevR.matchAt_false hf
            have hSnoop : processSettlements env now2 setts s2 = (s2, 0, none) :=
              processSettlements_rerun env now now2 setts store ss s2 sn hS hpresS
            have hRnoop : processSettPages env now2 rest s2 = (s2, 0, none) := by
              refine ih ss rs s2 rn hR ?_
              intro r hf
              apply hpres
              rw [← hs1]
              exact hf
            simp only [processSettPages, he, if_false, hSnoop, hlen, Bool.false_eq_true]
            rw [hRnoop]
            rfl
        · simp only [processSettPages, he, if_false, hS, Bool.false_eq_true] at h
          have : some e = none := congrArg (fun q => q.2.2) h
          simp at this

lemma isCompletedAt_true {store : DStore} {ref : String} {d : Donation}
    (hd : store ref = some d) (hc : d.status = DStatus.completed) :
    isCompletedAt store ref = true := by
  simp [isCompletedAt, hd, hc]

lemma verifyPayment_snd_of_completed {store : DStore} {ref : String} {d : Donation}
    (hd : store ref = some d) (hc : d.status = DStatus.completed)
    (gw : Except String VerifyResp) :
    (verifyPayment (some ref) gw store).2 = store := by
  rcases gw with e | pd
  · rfl
  · simp only [verifyPayment, isCompletedAt_true hd hc, if_true, hd]
    split_ifs <;> rfl

lemma paystackWebhookAfterGate_snd_of_completed {store : DStore} {ref : String}
    {d : Donation} (hd : store ref = some d) (hc : d.status = DStatus.completed)
    (gw : Except String VerifyResp) :
    (paystackWebhookAfterGate ref gw store).2 = store := by
  rcases gw with e | vd
  · rfl
  · simp only [paystackWebhookAfterGate, isCompletedAt_true hd hc, if_true]
    split_ifs <;> rfl

lemma verifyPayment_snd_cases (reference : Option String) (gw : Except String VerifyResp)
    (store : DStore) :
    (verifyPayment reference gw store).2 = store ∨
    ∃ ref resp, (verifyPayment reference gw store).2 =
      updateRef store ref (completeDoc ref resp) := by
  rcases reference with _ | ref
  · exact Or.inl rfl
  rcases gw with e | pd
  · exact Or.inl rfl
  simp only [verifyPayment]
  split_ifs with h1 h2 h3 h4
  · exact Or.inl rfl
  · exact Or.inl rfl
  · rcases h : store ref with _ | d <;> exact Or.inl rfl
  · refine Or.inr ⟨ref, pd.gateway_response, ?_⟩
    rcases h : updateRef store ref (completeDoc ref pd.gateway_response) ref
      with _ | d <;> rfl
  · exact Or.inl rfl
  · exact Or.inl rfl

lemma paystackWebhookAfterGate_snd_cases (ref : String) (gw : Except String VerifyResp)
    (store : DStore) :
    (paystackWebhookAfterGate ref gw store).2 = store ∨
    ∃ resp, (paystackWebhookAfterGate ref gw store).2 =
      updateRef store ref (completeDoc ref resp) := by
  rcases gw with e | vd
  · exact Or.inl rfl
  simp only [paystackWebhookAfterGate]
  split_ifs with h1 h2 h3 h4
  · exact Or.inl rfl
  · exact Or.inl rfl
  · exact Or.inr ⟨vd.gateway_response, rfl⟩
  · exact Or.inl rfl
  · exact Or.inl rfl

lemma paystackWebhook_snd_cases (hmac : String → String) (payload : Json)
    (signature : Option String) (gw : Except String VerifyResp) (store : DStore) :
    (paystackWebhook hmac payload signature gw store).2 = store ∨
    ∃ resp, (paystackWebhook hmac payload signature gw store).2 =
      updateRef store (webhookReference payload) (completeDoc (webhookReference payload) resp) := by
  rw [paystackWebhook]
  split_ifs with h
  · exact paystackWebhookAfterGate_snd_cases _ gw store
  · exact Or.inl rfl

/-- Invariant of section 8 of the spec: payout eligibility implies completion. -/
def PayoutInv (s : DStore) : Prop :=
  ∀ r d, s r = some d → d.isPayoutEligible = true → d.status = DStatus.completed

lemma payoutInv_updateRef_complete {s : DStore} (hInv : PayoutInv s)
    (ref : String) (resp : String) :
    PayoutInv (updateRef s ref (completeDoc ref resp)) := by
  intro r d hd he
  rw [updateRef] at hd
  by_cases hr : r = ref
  · rw [if_pos hr] at hd
    rcases hs : s r with _ | d0
    · rw [hs] at hd; simp at hd
    · rw [hs] at hd
      injection hd with h
      rw [← h]
      rfl
  · rw [if_neg hr] at hd
    exact hInv r d hd he

lemma payoutInv_evolves {now : Int} {s s' : DStore} (hEv : Evolves now s s')
    (hInv : PayoutInv s) : PayoutInv s' := by
  intro r d hd he
  rcases hEv r with hr | ⟨d0, hd0, hm, hs'⟩
  · rw [hr] at hd
    exact hInv r d hd he
  · rw [hs'] at hd
    injection hd with h
    rw [← h]
    show (applySettle now d0).status = DStatus.completed
    have := settleMatch_status hm
    simpa [applySettle] using this

/-- Claim C5: for every reachable donation store, `isPayoutEligible = true`
implies `status = completed`; `isPayoutEligible` defaults to false at creation,
and the reconciliation job — the only operation that sets it true — selects
only donations already completed (with `payoutStatus` pending and eligibility
false), so every operation of the subsystem preserves the implication. -/
theorem C5_payout_eligible_only_when_completed :
    (∀ s, ReachableStore s →
      ∀ r d, s r = some d → d.isPayoutEligible = true → d.status = DStatus.completed) ∧
    (∀ amount : ℚ, (mkDonation amount).isPayoutEligible = false) := by
  constructor
  · intro s hs
    induction hs with
    | empty =>
        intro r d hd
        simp at hd
    | create ref amount hfresh hprev ih =>
        intro r d hd he
        simp only [] at hd
        by_cases hr : r = ref
        · rw [if_pos hr] at hd
          injection hd with h
          rw [← h] at he
          simp [mkDonation] at he
        · rw [if_neg hr] at hd
          exact ih r d hd he
    | verify reference gw hprev ih =>
        rcases verifyPayment_snd_cases reference gw _ with hsame | ⟨ref, resp, hupd⟩
        · rw [hsame]; exact ih
        · rw [hupd]; exact payoutInv_updateRef_complete ih ref resp
    | webhook hmac payload signature gw hprev ih =>
        rcases paystackWebhook_snd_cases hmac payload signature gw _
          with hsame | ⟨resp, hupd⟩
        · rw [hsame]; exact ih
        · rw [hupd]; exact payoutInv_updateRef_complete ih _ resp
    | reconcile env lookbackDays now endTime jobs hprev ih =>
        exact payoutInv_evolves (runReconcile_evolves env lookbackDays now endTime jobs _) ih
  · intro amount
    rfl

/-- Keyed HMAC stand-in used by concrete webhook scenarios (the real
HMAC-SHA512 is external; handlers are verified for every keyed function). -/
def cwHmac : String → String := fun s => s ++ "#sig"

/-- Concrete `charge.success` webhook payload carrying chip-in reference `R`. -/
def cw5Payload : Json :=
  Json.obj (.cons "event" (Json.str "charge.success")
    (.cons "data" (Json.obj (.cons "reference" (Json.str "R") .nil)) .nil))

/-- Matching signature header for `cw5Payload` under `cwHmac`. -/
def cw5Sig : String := cwHmac (Json.stringify cw5Payload)

/-- Concrete successful chip-in verification response for reference `R`. -/
def cw5Vd : VerifyResp :=
  { status := "success", amount := 515000, gateway_response := "Approved",
    metadata := { type := "chipin", originalAmount := 5000, transaction_fee := 150 } }

/-- Concrete gateway window whose single settlement contains reference `R`. -/
def cw5Env : ReconcileEnv :=
  { settPages := fun _ => [Except.ok [{ id := 7 }]],
    txnPages := fun _ => [Except.ok [{ reference := "R" }]] }

/-- Store after creating the donation under reference `R`. -/
def cw5Store1 : DStore :=
  fun r => if r = "R" then some (mkDonation 5000) else (fun _ => none) r

/-- Store after webhook completion of `R`. -/
def cw5Store2 : DStore :=
  (paystackWebhook cwHmac cw5Payload (some cw5Sig) (.ok cw5Vd) cw5Store1).2

/-- Store after settlement reconciliation of `R`. -/
def cw5Final : DStore :=
  (runPaystackSettlementReconcile cw5Env 1 1000 2000 (fun _ => none) cw5Store2).store

/-- The donation document reached at the end of that scenario. -/
def cw5Donation : Donation :=
  applySettle 1000 (completeDoc "R" "Approved" (mkDonation 5000))

/-- Witness for C5 at a concrete reachable store: create, complete through the
webhook, reconcile; the resulting payout-eligible donation is completed. -/
theorem C5_witness :
    cw5Final "R" = some cw5Donation ∧ cw5Donation.isPayoutEligible = true ∧
    cw5Donation.status = DStatus.completed :=
  ⟨rfl, rfl,
    C5_payout_eligible_only_when_completed.1 cw5Final
      (ReachableStore.reconcile cw5Env 1 1000 2000 (fun _ => none)
        (ReachableStore.webhook cwHmac cw5Payload (some cw5Sig) (Except.ok cw5Vd)
          (ReachableStore.create "R" 5000 ReachableStore.empty rfl)))
      "R" cw5Donation rfl rfl⟩

/-- Claim C7: running the settlement reconciliation job twice over the same
(overlapping) window is idempotent.  A donation already payout-eligible is
excluded by the batch-query filter, so no run ever touches it (its `settledAt`
is not overwritten); and after a fully successful run, a re-run over the same
settlement pages writes nothing and legitimately reports `totalReconciled = 0`. -/
theorem C7_reconcile_rerun_idempotent (env : ReconcileEnv) (lookbackDays : Nat)
    (now1 end1 now2 end2 : Int) (jobs : JobStore) (store : DStore)
    (hconst : ∀ f g : Int, env.settPages f = env.settPages g) :
    (∀ ref d, store ref = some d → d.isPayoutEligible = true →
      (runPaystackSettlementReconcile env lookbackDays now1 end1 jobs store).store ref
        = some d) ∧
    ((runPaystackSettlementReconcile env lookbackDays now1 end1 jobs store).error = none →
      (runPaystackSettlementReconcile env lookbackDays now2 end2
          (runPaystackSettlementReconcile env lookbackDays now1 end1 jobs store).jobs
          (runPaystackSettlementReconcile env lookbackDays now1 end1 jobs store).store).store
        = (runPaystackSettlementReconcile env lookbackDays now1 end1 jobs store).store ∧
      (runPaystackSettlementReconcile env lookbackDays now2 end2
          (runPaystackSettlementReconcile env lookbackDays now1 end1 jobs store).jobs
          (runPaystackSettlementReconcile env lookbackDays now1 end1 jobs store).store).totalReconciled
        = 0) := by
  constructor
  · intro ref d hd he
    exact (runReconcile_evolves env lookbackDays now1 end1 jobs store).eligible_fixed hd he
  · intro herr
    rcases hrun : processSettPages env now1
        (env.settPages (reconcileFrom jobs now1 lookbackDays)) store with ⟨s1, n1, err⟩
    rcases err with _ | e
    · have hr1 : runPaystackSettlementReconcile env lookbackDays now1 end1 jobs store =
          ⟨s1, updateLastRun reconcileJobName end1 jobs, n1, none⟩ := by
        simp only [runPaystackSettlementReconcile, hrun]
      rw [hr1]
      have hpages : env.settPages
          (reconcileFrom (updateLastRun reconcileJobName end1 jobs) now2 lookbackDays)
          = env.settPages (reconcileFrom jobs now1 lookbackDays) := hconst _ _
      have hnoop := processSettPages_rerun env now1 now2
        (env.settPages (reconcileFrom jobs now1 lookbackDays)) store s1 s1 n1 hrun
        (fun _ hf => hf)
      constructor
      · simp only [runPaystackSettlementReconcile, hpages, hnoop]
      · simp only [runPaystackSettlementReconcile, hpages, hnoop]
    · exfalso
      have : (runPaystackSettlementReconcile env lookbackDays now1 end1 jobs store).error
          = some e := by
        simp only [runPaystackSettlementReconcile, hrun]
      rw [herr] at this
      simp at this

/-- Already-settled store used to witness C7 re-runs. -/
def cw7Store : DStore :=
  fun r => if r = "R" then some cw5Donation else none

/-- Witness for C7: re-running the concrete window of `cw5Env` over its own
result changes nothing and reconciles zero donations. -/
theorem C7_witness :
    (runPaystackSettlementReconcile cw5Env 1 3000 4000
        (runPaystackSettlementReconcile cw5Env 1 1000 2000 (fun _ => none) cw7Store).jobs
        (runPaystackSettlementReconcile cw5Env 1 1000 2000 (fun _ => none) cw7Store).store).store
      = (runPaystackSettlementReconcile cw5Env 1 1000 2000 (fun _ => none) cw7Store).store ∧
    (runPaystackSettlementReconcile cw5Env 1 3000 4000
        (runPaystackSettlementReconcile cw5Env 1 1000 2000 (fun _ => none) cw7Store).jobs
        (runPaystackSettlementReconcile cw5Env 1 1000 2000 (fun _ => none) cw7Store).store).totalReconciled
      = 0 :=
  (C7_reconcile_rerun_idempotent cw5Env 1 1000 2000 3000 4000 (fun _ => none) cw7Store
    (fun _ _ => rfl)).2 rfl

/-- Donation matching the reconciliation batch filter, used in checkpoint
scenarios. -/
def cw6Donation : Donation :=
  { amount := 5000, fee := 150, status := .completed,
    metadata := some { gateway := some "paystack" } }

/-- Store holding one completed, not-yet-eligible donation under `R`. -/
def cw6Store : DStore :=
  fun r => if r = "R" then some cw6Donation else none

/-- Gateway trace that yields a full first settlement page (50 entries, so
pagination continues) and then throws on page two, after the donation write of
page one has already been performed. -/
def cw6Env : ReconcileEnv :=
  { settPages := fun _ => [Except.ok (List.replicate 50 { id := 7 }),
      Except.error "ECONNRESET"],
    txnPages := fun _ => [Except.ok [{ reference := "R" }]] }

set_option maxRecDepth 100000 in
/-- Claim C6: the reconciliation job reads its checkpoint and computes
`from = lastRunAt ?? now − lookbackDays` (default lookback 1 day); the
checkpoint is upserted to the run's end time exactly when every settlement and
transaction page succeeded; and when the job throws partway through — as in the
concrete trace `cw6Env`, which fails on settlement page two after page one's
bulk write — the checkpoint is left unchanged, so the next run recomputes the
same `from`. -/
theorem C6_checkpoint_behavior :
    (∀ (jobs : JobStore) (now : Int) (lb : Nat),
      reconcileFrom jobs now lb
        = (getLastRun jobs reconcileJobName).getD (now - lookbackMs lb)) ∧
    defaultLookbackDays none = 1 ∧
    (∀ (env : ReconcileEnv) (lb : Nat) (now endTime : Int) (jobs : JobStore)
        (store : DStore),
      (runPaystackSettlementReconcile env lb now endTime jobs store).jobs
        = if (runPaystackSettlementReconcile env lb now endTime jobs store).error = none
          then updateLastRun reconcileJobName endTime jobs else jobs) ∧
    ((runPaystackSettlementReconcile cw6Env 1 1000 2000 (fun _ => none) cw6Store).error
        = some "ECONNRESET" ∧
      (runPaystackSettlementReconcile cw6Env 1 1000 2000 (fun _ => none) cw6Store).jobs
        = (fun _ => none) ∧
      (runPaystackSettlementReconcile cw6Env 1 1000 2000 (fun _ => none) cw6Store).store "R"
        = some (applySettle 1000 cw6Donation) ∧
      reconcileFrom
          (runPaystackSettlementReconcile cw6Env 1 1000 2000 (fun _ => none) cw6Store).jobs
          5000 1
        = reconcileFrom (fun _ => none) 5000 1) := by
  refine ⟨fun jobs now lb => rfl, rfl, ?_, rfl, rfl, rfl, rfl⟩
  intro env lb now endTime jobs store
  rcases hrun : processSettPages env now (env.settPages (reconcileFrom jobs now lb)) store
    with ⟨s1, n1, err⟩
  rcases err with _ | e
  · simp only [runPaystackSettlementReconcile, hrun]
    rfl
  · simp only [runPaystackSettlementReconcile, hrun]
    rfl

lemma updateRef_same (store : DStore) (ref : String) (f : Donation → Donation) :
    updateRef store ref f ref = (store ref).map f := by
  simp [updateRef]

lemma updateRef_other (store : DStore) {r ref : String} (f : Donation → Donation)
    (h : r ≠ ref) : updateRef store ref f r = store r := by
  simp [updateRef, h]

lemma isCompletedAt_false {store : DStore} {ref : String} {d : Donation}
    (hd : store ref = some d) (hnc : d.status ≠ DStatus.completed) :
    isCompletedAt store ref = false := by
  simp [isCompletedAt, hd, hnc]

lemma verifyPayment_completes {store : DStore} {ref : String} {vd : VerifyResp}
    (hst : vd.status = "success") (hty : vd.metadata.type = "chipin")
    (hamt : vd.amount = (vd.metadata.originalAmount + vd.metadata.transaction_fee) * 100)
    {d : Donation} (hd : store ref = some d) (hnc : d.status ≠ DStatus.completed) :
    verifyPayment (some ref) (.ok vd) store
      = (.success (some (completeDoc ref vd.gateway_response d)) "chipin",
         updateRef store ref (completeDoc ref vd.gateway_response)) := by
  simp only [verifyPayment, hst, hty, hamt, isCompletedAt_false hd hnc,
    updateRef_same, hd]
  simp

lemma verifyPayment_already {store : DStore} {ref : String} {vd : VerifyResp}
    (hst : vd.status = "success") (hty : vd.metadata.type = "chipin")
    (hamt : vd.amount = (vd.metadata.originalAmount + vd.metadata.transaction_fee) * 100)
    {d : Donation} (hd : store ref = some d) (hc : d.status = DStatus.completed) :
    verifyPayment (some ref) (.ok vd) store = (.success (some d) "chipin", store) := by
  simp only [verifyPayment, hst, hty, hamt, isCompletedAt_true hd hc, hd]
  simp

lemma paystackWebhookAfterGate_completes {store : DStore} {ref : String} {vd : VerifyResp}
    (hst : vd.status = "success") (hty : vd.metadata.type = "chipin")
    (hca : isCompletedAt store ref = false) :
    paystackWebhookAfterGate ref (.ok vd) store
      = (200, updateRef store ref (completeDoc ref vd.gateway_response)) := by
  simp only [paystackWebhookAfterGate, hst, hty, hca]
  simp

lemma paystackWebhookAfterGate_already {store : DStore} {ref : String} {vd : VerifyResp}
    (hst : vd.status = "success") (hty : vd.metadata.type = "chipin")
    {d : Donation} (hd : store ref = some d) (hc : d.status = DStatus.completed) :
    paystackWebhookAfterGate ref (.ok vd) store = (200, store) := by
  simp only [paystackWebhookAfterGate, hst, hty, isCompletedAt_true hd hc]
  simp

lemma isCompletedAt_none {store : DStore} {ref : String} (hd : store ref = none) :
    isCompletedAt store ref = false := by
  simp [isCompletedAt, hd]

lemma verifyPayment_mismatch {ref : String} {vd : VerifyResp} {store : DStore}
    (hst : vd.status = "success")
    (hamt : vd.amount ≠ (vd.metadata.originalAmount + vd.metadata.transaction_fee) * 100) :
    verifyPayment (some ref) (.ok vd) store = (.err 400 "Payment amount mismatch", store) := by
  simp only [verifyPayment, hst]
  simp [hamt]

lemma verifyPayment_notfound {ref : String} {vd : VerifyResp} {store : DStore}
    (hst : vd.status = "success") (hty : vd.metadata.type = "chipin")
    (hamt : vd.amount = (vd.metadata.originalAmount + vd.metadata.transaction_fee) * 100)
    (hd : store ref = none) :
    verifyPayment (some ref) (.ok vd) store
      = (.err 404 "Chip-in not found",
         updateRef store ref (completeDoc ref vd.gateway_response)) := by
  simp only [verifyPayment, hst, hty, hamt, isCompletedAt_none hd, updateRef_same, hd]
  simp

/-- Claim C2: completing an already-completed donation again (same reference,
same verified amount) is a no-op that returns the existing record.  Starting
from a pending donation, the first call performs the single transition to
`completed` and writes the metadata in the same update, so the record is never
completed with missing metadata; a second call on either path leaves every
field unchanged. -/
theorem C2_completion_idempotent (ref : String) (vd : VerifyResp) (store : DStore)
    (d0 : Donation)
    (hst : vd.status = "success") (hty : vd.metadata.type = "chipin")
    (hamt : vd.amount = (vd.metadata.originalAmount + vd.metadata.transaction_fee) * 100)
    (hd : store ref = some d0) (hp : d0.status = DStatus.pending) :
    (verifyPayment (some ref) (.ok vd) store).1
      = .success (some (completeDoc ref vd.gateway_response d0)) "chipin" ∧
    (verifyPayment (some ref) (.ok vd) store).2 ref
      = some (completeDoc ref vd.gateway_response d0) ∧
    (completeDoc ref vd.gateway_response d0).status = DStatus.completed ∧
    (completeDoc ref vd.gateway_response d0).metadata.isSome = true ∧
    verifyPayment (some ref) (.ok vd) ((verifyPayment (some ref) (.ok vd) store).2)
      = (.success (some (completeDoc ref vd.gateway_response d0)) "chipin",
         (verifyPayment (some ref) (.ok vd) store).2) ∧
    paystackWebhookAfterGate ref (.ok vd) ((verifyPayment (some ref) (.ok vd) store).2)
      = (200, (verifyPayment (some ref) (.ok vd) store).2) := by
  have hnc : d0.status ≠ DStatus.completed := by
    rw [hp]
    simp
  have h1 := verifyPayment_completes hst hty hamt hd hnc
  have hs1ref : (verifyPayment (some ref) (.ok vd) store).2 ref
      = some (completeDoc ref vd.gateway_response d0) := by
    rw [h1]
    show updateRef store ref (completeDoc ref vd.gateway_response) ref = _
    rw [updateRef_same, hd]
    rfl
  refine ⟨by rw [h1], hs1ref, rfl, rfl, ?_, ?_⟩
  · exact verifyPayment_already hst hty hamt hs1ref rfl
  · exact paystackWebhookAfterGate_already hst hty hs1ref rfl

/-- Pending-donation store used by concrete completion scenarios. -/
def cw2Store : DStore :=
  fun r => if r = "R" then some (mkDonation 5000) else none

/-- Witness for C2 at scenario-B numbers: first verify call completes the
pending donation; the repeated call returns the same record and changes
nothing. -/
theorem C2_witness :
    (verifyPayment (some "R") (.ok cw5Vd) cw2Store).1
      = .success (some (completeDoc "R" "Approved" (mkDonation 5000))) "chipin" ∧
    verifyPayment (some "R") (.ok cw5Vd) ((verifyPayment (some "R") (.ok cw5Vd) cw2Store).2)
      = (.success (some (completeDoc "R" "Approved" (mkDonation 5000))) "chipin",
         (verifyPayment (some "R") (.ok cw5Vd) cw2Store).2) := by
  have h := C2_completion_idempotent "R" cw5Vd cw2Store (mkDonation 5000) rfl rfl
    (by norm_num [cw5Vd]) rfl rfl
  exact ⟨h.1, h.2.2.2.2.1⟩

/-- An already-completed donation carrying earlier metadata (gateway response
code `00`). -/
def cw1Completed : Donation :=
  { amount := 5000, fee := 150, status := .completed,
    metadata := some { transactionId := some "R", gateway := some "paystack",
                       gatewayResponse := some "00" } }

/-- Store holding the completed donation `cw1Completed` under reference `R`. -/
def cw1Store : DStore :=
  fun r => if r = "R" then some cw1Completed else none

/-- Counterexample to C1 as stated: the completion write issued by both
handlers (`findOneAndUpdate` matching on the payment reference alone, modelled
by `updateRef _ _ (completeDoc _ _)`) applied to a donation already in status
`completed` does modify fields — its match condition does not require
not-already-completed, so the write overwrites the stored metadata. -/
theorem C1_counterexample :
    updateRef cw1Store "R" (completeDoc "R" "Approved") "R" ≠ cw1Store "R" ∧
    updateRef cw1Store "R" (completeDoc "R" "Approved") "R"
      = some (completeDoc "R" "Approved" cw1Completed) := by
  constructor
  · intro h
    have h' : completeDoc "R" "Approved" cw1Completed = cw1Completed := by
      have hL : updateRef cw1Store "R" (completeDoc "R" "Approved") "R"
          = some (completeDoc "R" "Approved" cw1Completed) := by
        rw [updateRef_same]
        rfl
      rw [hL] at h
      have hR : cw1Store "R" = some cw1Completed := rfl
      rw [hR] at h
      exact Option.some.inj h
    have hmeta := congrArg Donation.metadata h'
    exact absurd hmeta (by decide)
  · rw [updateRef_same]
    rfl

/-- Claim C1 (amended): the completion write matches on the payment reference
alone (find-then-update, not a conditional update); idempotency instead comes
from the preceding read — when the read observes a completed donation, both
handlers skip the write entirely, so the sequential completion of an
already-completed donation leaves the store unchanged. -/
theorem C1_completed_skips_write (ref : String) (gw : Except String VerifyResp)
    (store : DStore) (d : Donation)
    (hd : store ref = some d) (hc : d.status = DStatus.completed) :
    (verifyPayment (some ref) gw store).2 = store ∧
    (paystackWebhookAfterGate ref gw store).2 = store :=
  ⟨verifyPayment_snd_of_completed hd hc gw,
   paystackWebhookAfterGate_snd_of_completed hd hc gw⟩

/-- Witness for C1 (amended) on the concrete completed store. -/
theorem C1_witness :
    (verifyPayment (some "R") (.ok cw5Vd) cw1Store).2 = cw1Store ∧
    (paystackWebhookAfterGate "R" (.ok cw5Vd) cw1Store).2 = cw1Store :=
  C1_completed_skips_write "R" (.ok cw5Vd) cw1Store cw1Completed rfl rfl

/-- Verification response whose amount (514000) does not match the expected
`(5000 + 150) * 100 = 515000`. -/
def cw3Vd : VerifyResp :=
  { status := "success", amount := 514000, gateway_response := "Approved",
    metadata := { type := "chipin", originalAmount := 5000, transaction_fee := 150 } }

/-- Pending donation stored under `CHIP-IN_1`. -/
def cw3Store : DStore :=
  fun r => if r = "CHIP-IN_1" then some (mkDonation 5000) else none

/-- Counterexample to C3 as stated: the two chipin branches do not perform the
same validation.  On an amount-mismatched verification the verify-payment
branch rejects with 400 and leaves the donation pending, while the webhook
branch — which has no amount check — completes the very same donation. -/
theorem C3_counterexample :
    (verifyPayment (some "CHIP-IN_1") (.ok cw3Vd) cw3Store).1
      = .err 400 "Payment amount mismatch" ∧
    (verifyPayment (some "CHIP-IN_1") (.ok cw3Vd) cw3Store).2 "CHIP-IN_1"
      = some (mkDonation 5000) ∧
    (paystackWebhookAfterGate "CHIP-IN_1" (.ok cw3Vd) cw3Store).2 "CHIP-IN_1"
      = some (completeDoc "CHIP-IN_1" "Approved" (mkDonation 5000)) ∧
    (mkDonation 5000).status = DStatus.pending ∧
    (completeDoc "CHIP-IN_1" "Approved" (mkDonation 5000)).status = DStatus.completed := by
  have hamt : cw3Vd.amount
      ≠ (cw3Vd.metadata.originalAmount + cw3Vd.metadata.transaction_fee) * 100 := by
    norm_num [cw3Vd]
  have hmm := @verifyPayment_mismatch "CHIP-IN_1" cw3Vd cw3Store rfl hamt
  have hph := @paystackWebhookAfterGate_completes cw3Store "CHIP-IN_1" cw3Vd rfl rfl rfl
  refine ⟨by rw [hmm], by rw [hmm]; rfl, ?_, rfl, rfl⟩
  rw [hph]
  show updateRef cw3Store "CHIP-IN_1" (completeDoc "CHIP-IN_1" "Approved") "CHIP-IN_1" = _
  rw [updateRef_same]
  rfl

/-- Claim C3 (amended): both chipin branches apply the identical completion
update (`completeDoc` through the same reference-keyed write), but only the
verify-payment branch validates the verified amount; the webhook branch
performs no amount check.  The final donation state is nevertheless the same
whichever of the two paths processes the reference first. -/
theorem C3_order_independence (ref : String) (vd : VerifyResp) (store : DStore)
    (hst : vd.status = "success") (hty : vd.metadata.type = "chipin") :
    (paystackWebhookAfterGate ref (.ok vd) ((verifyPayment (some ref) (.ok vd) store).2)).2
      = (verifyPayment (some ref) (.ok vd) ((paystackWebhookAfterGate ref (.ok vd) store).2)).2 := by
  by_cases hamt : vd.amount = (vd.metadata.originalAmount + vd.metadata.transaction_fee) * 100
  · rcases hd : store ref with _ | d
    · have hv := verifyPayment_notfound hst hty hamt hd
      have hw := @paystackWebhookAfterGate_completes store ref vd hst hty (isCompletedAt_none hd)
      rw [hv, hw]
      show (paystackWebhookAfterGate ref (.ok vd)
          (updateRef store ref (completeDoc ref vd.gateway_response))).2
        = (verifyPayment (some ref) (.ok vd)
          (updateRef store ref (completeDoc ref vd.gateway_response))).2
      have hnone : updateRef store ref (completeDoc ref vd.gateway_response) ref = none := by
        rw [updateRef_same, hd]
        rfl
      have hw2 := @paystackWebhookAfterGate_completes
        (updateRef store ref (completeDoc ref vd.gateway_response)) ref vd
        hst hty (isCompletedAt_none hnone)
      have hv2 := verifyPayment_notfound hst hty hamt hnone
      rw [hw2, hv2]
    · by_cases hc : d.status = DStatus.completed
      · rw [verifyPayment_snd_of_completed hd hc, paystackWebhookAfterGate_snd_of_completed hd hc]
        exact (verifyPayment_snd_of_completed hd hc _).symm
      · have hv := verifyPayment_completes hst hty hamt hd hc
        have hw := @paystackWebhookAfterGate_completes store ref vd
          hst hty (isCompletedAt_false hd hc)
        rw [hv, hw]
        show (paystackWebhookAfterGate ref (.ok vd)
            (updateRef store ref (completeDoc ref vd.gateway_response))).2
          = (verifyPayment (some ref) (.ok vd)
            (updateRef store ref (completeDoc ref vd.gateway_response))).2
        have hcomp : updateRef store ref (completeDoc ref vd.gateway_response) ref
            = some (completeDoc ref vd.gateway_response d) := by
          rw [updateRef_same, hd]
          rfl
        rw [paystackWebhookAfterGate_snd_of_completed hcomp rfl,
          verifyPayment_snd_of_completed hcomp rfl]
  · have hv := @verifyPayment_mismatch ref vd store hst hamt
    rw [hv]
    show (paystackWebhookAfterGate ref (.ok vd) store).2
      = (verifyPayment (some ref) (.ok vd) ((paystackWebhookAfterGate ref (.ok vd) store).2)).2
    rw [verifyPayment_mismatch hst hamt]

/-- Witness for C3 (amended) on the pending store with a matching amount. -/
theorem C3_witness :
    (paystackWebhookAfterGate "R" (.ok cw5Vd) ((verifyPayment (some "R") (.ok cw5Vd) cw2Store).2)).2
      = (verifyPayment (some "R") (.ok cw5Vd) ((paystackWebhookAfterGate "R" (.ok cw5Vd) cw2Store).2)).2 :=
  C3_order_independence "R" cw5Vd cw2Store rfl rfl

/-- Claim C4: in the verify-payment handler, a successful gateway verification
whose returned amount differs from
`(metadata.originalAmount + metadata.transaction_fee) * 100` — the fee having
been computed at creation by `calculateFee`, i.e. `amount * 0.01 + 100` — is
rejected with a 400 amount-mismatch error and no state change: the store (and
so the pending donation) is untouched. -/
theorem C4_amount_mismatch_rejected (ref : String) (vd : VerifyResp) (store : DStore)
    (hst : vd.status = "success")
    (_hfee : vd.metadata.transaction_fee = calculateFee vd.metadata.originalAmount)
    (hamt : vd.amount ≠ (vd.metadata.originalAmount + vd.metadata.transaction_fee) * 100) :
    verifyPayment (some ref) (.ok vd) store = (.err 400 "Payment amount mismatch", store) ∧
    calculateFee vd.metadata.originalAmount
      = vd.metadata.originalAmount * (1 / 100) + 100 :=
  ⟨verifyPayment_mismatch hst hamt, rfl⟩

/-- Witness for C4 at the spec's scenario-B numbers: fee 150 = calculateFee
5000, returned amount 514000 ≠ 515000, rejection with no state change. -/
theorem C4_witness :
    cw3Vd.metadata.transaction_fee = calculateFee cw3Vd.metadata.originalAmount ∧
    verifyPayment (some "CHIP-IN_1") (.ok cw3Vd) cw3Store
      = (.err 400 "Payment amount mismatch", cw3Store) :=
  ⟨by norm_num [cw3Vd, calculateFee],
   (C4_amount_mismatch_rejected "CHIP-IN_1" cw3Vd cw3Store rfl
      (by norm_num [cw3Vd, calculateFee]) (by norm_num [cw3Vd])).1⟩

/-- Raw webhook body whose only deviation from its re-serialization is one
space character. -/
def cw8Raw : String := "\x7b\"event\": \"charge.success\"\x7d"

/-- The parse of `cw8Raw`. -/
def cw8Payload : Json := Json.obj (.cons "event" (Json.str "charge.success") .nil)

/-- Counterexample to C8 as stated: the handler hashes
`JSON.stringify(payload)` — the re-serialization of the parsed body — not the
exact received payload bytes.  `cw8Raw` parses to `cw8Payload` yet
re-serializes differently, so a signature computed over the exact bytes is
accepted by the spec's gate and rejected by the code's gate. -/
theorem C8_counterexample :
    jsParse cw8Raw = some cw8Payload ∧
    Json.stringify cw8Payload ≠ cw8Raw ∧
    webhookGateSpec cwHmac cw8Raw cw8Payload (some (cwHmac cw8Raw)) = true ∧
    webhookGate cwHmac cw8Payload (some (cwHmac cw8Raw)) = false := by
  refine ⟨by decide, by decide, by decide, by decide⟩

/-- Claim C8 (amended): the webhook recomputes the keyed HMAC-SHA512 over the
JSON re-serialization of the parsed payload and compares it to the
`x-paystack-signature` header; on mismatch — or on any event other than
`charge.success` — it responds with a bare HTTP 400 (`res.sendStatus`, no
detail disclosed), performs no further processing, and the donation store is
untouched. -/
theorem C8_signature_gate (hmac : String → String) (payload : Json)
    (signature : Option String) (gw : Except String VerifyResp) (store : DStore) :
    (webhookGate hmac payload signature
      = (decide (signature = some (hmac (Json.stringify payload)))
          && decide (payload.getField "event" = some (Json.str "charge.success")))) ∧
    (webhookGate hmac payload signature = false →
      paystackWebhook hmac payload signature gw store = (400, store)) ∧
    (payload.getField "event" ≠ some (Json.str "charge.success") →
      paystackWebhook hmac payload signature gw store = (400, store)) := by
  have hreject : webhookGate hmac payload signature = false →
      paystackWebhook hmac payload signature gw store = (400, store) := by
    intro h
    simp only [paystackWebhook, h]
    simp
  refine ⟨rfl, hreject, ?_⟩
  intro h
  apply hreject
  simp [webhookGate, h]

/-- Witness for C8 (amended): an arbitrary wrong signature is rejected with a
bare 400 and no state change. -/
theorem C8_witness :
    webhookGate cwHmac cw8Payload (some "bad") = false ∧
    paystackWebhook cwHmac cw8Payload (some "bad") (Except.error "e") cw6Store
      = (400, cw6Store) :=
  ⟨by decide,
   (C8_signature_gate cwHmac cw8Payload (some "bad") (Except.error "e") cw6Store).2.1
     (by decide)⟩

/-- Claim C9 (implicit): a webhook with valid signature and `charge.success`
event whose chipin reference matches no stored donation still responds
HTTP 200 — the completion update matches zero documents, no NotFound or other
error is produced, and the store is unchanged. -/
theorem C9_unknown_reference_ack (hmac : String → String) (payload : Json)
    (signature : Option String) (vd : VerifyResp) (store : DStore)
    (hgate : webhookGate hmac payload signature = true)
    (hst : vd.status = "success") (hty : vd.metadata.type = "chipin")
    (hd : store (webhookReference payload) = none) :
    paystackWebhook hmac payload signature (.ok vd) store = (200, store) := by
  have hupd : updateRef store (webhookReference payload)
      (completeDoc (webhookReference payload) vd.gateway_response) = store := by
    funext r
    by_cases hr : r = webhookReference payload
    · rw [hr, updateRef_same, hd]
      rfl
    · exact updateRef_other store _ hr
  have hafter := @paystackWebhookAfterGate_completes store (webhookReference payload) vd
    hst hty (isCompletedAt_none hd)
  simp only [paystackWebhook, hgate, if_true]
  rw [hafter, hupd]

/-- Concrete `charge.success` payload whose chipin reference `NOPE` matches no
stored donation. -/
def cw9Payload : Json :=
  Json.obj (.cons "event" (Json.str "charge.success")
    (.cons "data" (Json.obj (.cons "reference" (Json.str "NOPE") .nil)) .nil))

/-- Witness for C9 on the empty store. -/
theorem C9_witness :
    paystackWebhook cwHmac cw9Payload (some (cwHmac (Json.stringify cw9Payload)))
      (.ok cw5Vd) (fun _ => none) = (200, fun _ => none) :=
  C9_unknown_reference_ack cwHmac cw9Payload
    (some (cwHmac (Json.stringify cw9Payload))) cw5Vd (fun _ => none)
    (by decide) rfl rfl rfl

/-- Claim C10 (implicit): for a newly created donation against an event with
chip-in details, the save fails with 400 when `chipInType = "donation"` and the
amount is below `minAmount`, or when `chipInType = "fixed"` and the amount
differs from `fixedAmount`; with 404 when the event does not exist; otherwise
the save succeeds with `fee = calculateFee(amount)`, and the hook does nothing
on a non-new save, so the fee is assigned only on first save. -/
theorem C10_presave_validation (ev : EventRec) (cd : ChipInDetails) (d : Donation)
    (hcd : ev.chipInDetails = some cd) :
    (cd.chipInType = "donation" → jsLtOpt d.amount cd.minAmount = true →
      ∃ msg, donationPreSave true (some ev) d = .error ⟨msg, 400⟩) ∧
    (cd.chipInType = "fixed" → jsNeqOpt d.amount cd.fixedAmount = true →
      ∃ msg, donationPreSave true (some ev) d = .error ⟨msg, 400⟩) ∧
    (¬ (cd.chipInType = "donation" ∧ jsLtOpt d.amount cd.minAmount = true) →
      ¬ (cd.chipInType = "fixed" ∧ jsNeqOpt d.amount cd.fixedAmount = true) →
      donationPreSave true (some ev) d = .ok { d with fee := calculateFee d.amount }) ∧
    (∀ d' : Donation, donationPreSave true none d' = .error ⟨"Event not found", 404⟩) ∧
    (∀ (ev' : Option EventRec) (d' : Donation), donationPreSave false ev' d' = .ok d') := by
  refine ⟨?_, ?_, ?_, fun d' => rfl, fun ev' d' => rfl⟩
  · intro hty hlt
    exact ⟨"Donation amount must be at least " ++ d.currency ++ " "
        ++ showOptAmount cd.minAmount,
      by simp [donationPreSave, hcd, hty, hlt]⟩
  · intro hty hne
    exact ⟨"Donation amount must be exactly " ++ d.currency ++ " "
        ++ showOptAmount cd.fixedAmount,
      by simp [donationPreSave, hcd, hty, hne]⟩
  · intro h1 h2
    have hA : ¬ ((decide (cd.chipInType = "donation") && jsLtOpt d.amount cd.minAmount) = true) := by
      rw [Bool.and_eq_true, decide_eq_true_eq]
      exact h1
    have hB : ¬ ((decide (cd.chipInType = "fixed") && jsNeqOpt d.amount cd.fixedAmount) = true) := by
      rw [Bool.and_eq_true, decide_eq_true_eq]
      exact h2
    simp [donationPreSave, hcd, hA, hB]

/-- Chip-in details of type `donation` with a 1000 minimum. -/
def cw10Cd : ChipInDetails := { chipInType := "donation", minAmount := some 1000 }

/-- Event carrying `cw10Cd`. -/
def cw10Ev : EventRec := { chipInDetails := some cw10Cd }

/-- New donation document below the minimum. -/
def cw10D : Donation := { amount := 500, fee := 0 }

/-- Witness for C10: a 500 donation against a 1000-minimum event fails its
first save with a 400 error, and a non-new save runs no validation and leaves
the document unchanged. -/
theorem C10_witness :
    jsLtOpt cw10D.amount cw10Cd.minAmount = true ∧
    (∃ msg, donationPreSave true (some cw10Ev) cw10D = .error ⟨msg, 400⟩) ∧
    donationPreSave false (some cw10Ev) cw10D = .ok cw10D := by
  have hlt : jsLtOpt cw10D.amount cw10Cd.minAmount = true := by
    simp only [jsLtOpt, cw10D, cw10Cd, decide_eq_true_eq]
    norm_num
  have h := C10_presave_validation cw10Ev cw10Cd cw10D rfl
  exact ⟨hlt, h.1 rfl hlt, h.2.2.2.2 (some cw10Ev) cw10D⟩
